import Mathlib

/-! Verification development for the sqlite_orm repository: a shallow
embedding of the type mapper, value codec, schema deriver, filter
translator and the model facade, together with theorems settling the
specification claims.  Definitions follow src/src/database/field_types.py,
src/src/database/query.py and src/src/base_model.py; the embedded SQL
engine (sqlite) is modelled as a table of rows with the usual NULL
comparison semantics. -/

namespace SqliteOrm

/-- Python semantic type tags relevant to the field mapper. -/
inductive PyTy where
  | str
  | int
  | float
  | bool
  | noneType
deriving DecidableEq

/-- Python runtime values crossing the ORM and storage boundary.  Real
numbers carry an uninterpreted payload: the codec and the claims treat
them as passthrough data, so only equality of payloads matters. -/
inductive PyValue where
  | none_
  | int (n : Int)
  | str (s : String)
  | float (bits : Nat)
  | bool (b : Bool)
deriving DecidableEq

/-- A field type tyAnn as observed through get_origin and get_args:
either the literal None tyAnn, a plain class, or a parameterized
tyAnn (a union or a generic) carrying its argument list. -/
inductive TyAnn where
  | noneA
  | plain (t : PyTy)
  | generic (args : List PyTy)
deriving DecidableEq

/-- FieldType from field_types.py: an sqlite column type together with
the python type driving the codec. -/
structure FieldType where
  sqlite_type : String
  python_type : PyTy
deriving DecidableEq

/-- TYPE_MAPPING from field_types.py, as the lookup function of the dict. -/
def TYPE_MAPPING : PyTy → Option FieldType
  | PyTy.str => some { sqlite_type := "TEXT", python_type := PyTy.str }
  | PyTy.int => some { sqlite_type := "INTEGER", python_type := PyTy.int }
  | PyTy.float => some { sqlite_type := "REAL", python_type := PyTy.float }
  | PyTy.bool => some { sqlite_type := "INTEGER", python_type := PyTy.bool }
  | PyTy.noneType => none

/-- The final TYPE_MAPPING.get call of get_field_type: only a plain class
can be a key of the dict; a residual union or generic object is never a
key and yields None. -/
def typeMappingGet : TyAnn → Option FieldType
  | TyAnn.plain t => TYPE_MAPPING t
  | _ => none

/-- get_field_type from field_types.py.  A two-argument union containing
None unwraps to its non-None member; any other parameterized tyAnn
with at least one argument is replaced by its first argument; the result
is then looked up in TYPE_MAPPING. -/
def get_field_type (tyAnn : TyAnn) : Option FieldType :=
  match tyAnn with
  | TyAnn.noneA => none
  | TyAnn.plain _ => typeMappingGet tyAnn
  | TyAnn.generic args =>
    let tyAnn2 : TyAnn :=
      if args.length = 2 then
        if args.any (fun a => decide (a = PyTy.noneType)) then
          match args.find? (fun a => !(decide (a = PyTy.noneType))) with
          | some t => TyAnn.plain t
          | none => TyAnn.generic args
        else TyAnn.generic args
      else
        match args with
        | [] => TyAnn.generic args
        | t :: _ => TyAnn.plain t
    typeMappingGet tyAnn2

/-- Python truthiness, used by the boolean codec branch.  The truthiness
of the uninterpreted real payload takes 0 to stand for 0.0. -/
def truthy : PyValue → Bool
  | PyValue.none_ => false
  | PyValue.bool b => b
  | PyValue.int n => !(decide (n = 0))
  | PyValue.str s => !(decide (s = ""))
  | PyValue.float bits => !(decide (bits = 0))

/-- FieldType.to_db_value: None passes through; booleans are stored as
the integers 1 and 0; every other value passes through unchanged. -/
def FieldType.to_db_value (ft : FieldType) (value : PyValue) : PyValue :=
  match value with
  | PyValue.none_ => PyValue.none_
  | v =>
    if ft.python_type = PyTy.bool then
      (if truthy v then PyValue.int 1 else PyValue.int 0)
    else v

/-- FieldType.from_db_value: None passes through; under a boolean field
the stored value is converted with bool(value); otherwise unchanged. -/
def FieldType.from_db_value (ft : FieldType) (value : PyValue) : PyValue :=
  match value with
  | PyValue.none_ => PyValue.none_
  | v =>
    if ft.python_type = PyTy.bool then PyValue.bool (truthy v)
    else v

/-- Module level to_db_value from field_types.py: identity when the
tyAnn has no field type, the field codec otherwise. -/
def to_db_value (value : PyValue) (tyAnn : TyAnn) : PyValue :=
  match get_field_type tyAnn with
  | none => value
  | some ft => ft.to_db_value value

/-- Module level from_db_value from field_types.py. -/
def from_db_value (value : PyValue) (tyAnn : TyAnn) : PyValue :=
  match get_field_type tyAnn with
  | none => value
  | some ft => ft.from_db_value value

/-- Typing judgment pairing runtime values with semantic type tags; used
to state the codec round-trip law over well-typed values. -/
def hasType : PyValue → PyTy → Bool
  | PyValue.str _, PyTy.str => true
  | PyValue.int _, PyTy.int => true
  | PyValue.float _, PyTy.float => true
  | PyValue.bool _, PyTy.bool => true
  | _, _ => false

/-- Lookup in an association list with string keys, mirroring Python
dict lookup (keys are unique by construction of dictSet). -/
def dictGet {α : Type} : List (String × α) → String → Option α
  | [], _ => none
  | (k, v) :: rest, key => if k = key then some v else dictGet rest key

/-- Update or append a binding, preserving the position of an existing
key, mirroring Python dict assignment order semantics. -/
def dictSet {α : Type} : List (String × α) → String → α → List (String × α)
  | [], key, value => [(key, value)]
  | (k, v) :: rest, key, value =>
    if k = key then (key, value) :: rest
    else (k, v) :: dictSet rest key value

/-- dict.pop with a default of absence: returns the removed value and
the remaining bindings. -/
def dictPop {α : Type} : List (String × α) → String → Option α × List (String × α)
  | [], _ => (none, [])
  | (k, v) :: rest, key =>
    if k = key then (some v, rest)
    else
      let p := dictPop rest key
      (p.1, (k, v) :: p.2)

/-- Merge base-class attributes under subclass attributes, the subclass
binding shadowing the base one. -/
def mergeDicts {α : Type} (base child : List (String × α)) : List (String × α) :=
  child.foldl (fun acc q => dictSet acc q.1 q.2) base

/-- ASCII lowering of one character, modelling str.lower on the ASCII
class and table names the repository uses. -/
def charLower (c : Char) : Char :=
  if 65 ≤ c.toNat ∧ c.toNat ≤ 90 then Char.ofNat (c.toNat + 32) else c

/-- str.lower over the characters of a string. -/
def strToLower (s : String) : String :=
  String.mk (s.data.map charLower)

/-- str.startswith for the single-character reserved prefix marking
non-persisted attributes. -/
def startsWithUnderscore (s : String) : Bool :=
  match s.data with
  | c :: _ => decide (c = '_')
  | [] => false

/-- Per-field metadata entry stored by ModelMeta (base_model.py lines
65-69): the tyAnn together with its sqlite and python types. -/
structure FieldMeta where
  tyAnn : TyAnn
  sqlite_type : String
  python_type : PyTy
deriving DecidableEq

/-- The _meta dict computed by ModelMeta (base_model.py lines 72-76). -/
structure MetaDict where
  table_name : String
  fields : List (String × FieldMeta)
  abstract : Bool
deriving DecidableEq

/-- Field derivation loop of ModelMeta.__new__ (base_model.py lines
53-69): skip private names, Meta, id and methods; keep only anns
with a supported field type. -/
def deriveFields (anns : List (String × TyAnn)) (methods : List String) :
    List (String × FieldMeta) :=
  anns.filterMap fun p =>
    if startsWithUnderscore p.1 ∨ p.1 = "Meta" ∨ p.1 = "id" ∨ p.1 ∈ methods then none
    else
      match get_field_type p.2 with
      | some ft =>
        some (p.1, { tyAnn := p.2, sqlite_type := ft.sqlite_type,
                     python_type := ft.python_type })
      | none => none

/-- A processed model class: the Meta attributes after ModelMeta ran,
the _meta dict the class itself received (absent for classes declared
abstract), the _meta dict visible through attribute inheritance from the
nearest ancestor, and the class-level attribute defaults. -/
structure PyClass where
  name : String
  metaAbstract : Bool
  metaDbTable : Option String
  ownMeta : Option MetaDict
  inheritedMeta : Option MetaDict
  classDefaults : List (String × PyValue)
deriving DecidableEq

/-- Attribute lookup of _meta through the method resolution order: the
own class dict first, then the nearest ancestor carrying one. -/
def PyClass.effMeta (cls : PyClass) : Option MetaDict :=
  match cls.ownMeta with
  | some m => some m
  | none => cls.inheritedMeta

/-- Model.is_abstract (base_model.py lines 142-147): True when no _meta
attribute is reachable, otherwise the abstract entry of the reachable
_meta dict. -/
def PyClass.is_abstract (cls : PyClass) : Bool :=
  match cls.effMeta with
  | none => true
  | some m => m.abstract

/-- The base class data ModelMeta.__new__ consults: the Meta attributes
of the base (absent only for object), the effective _meta the subclass
would inherit, and the base class attribute defaults. -/
structure BaseInfo where
  metaAbstract : Option Bool
  metaDbTable : Option (Option String)
  effMeta : Option MetaDict
  classDefaults : List (String × PyValue)

/-- The source-level declaration of a model class: its name, the Meta
overrides present in its namespace, its own anns (the inherited
Model anns id and _db are always skipped by name, so they are
kept in the root declaration only), its method names and its class-level
attribute defaults. -/
structure ClassDecl where
  name : String
  nsAbstract : Option Bool
  nsDbTable : Option (Option String)
  anns : List (String × TyAnn)
  methods : List String
  defaults : List (String × PyValue)

/-- ModelMeta.__new__ (base_model.py lines 14-78).  Meta attributes not
present in the namespace are copied from the base Meta, then defaulted
(abstract to False, db_table to None).  An abstract class is returned
before any _meta is attached.  Otherwise db_table defaults to the
lowercased class name, is written back onto Meta, and the _meta dict is
derived from the anns. -/
def modelMetaNew (base : BaseInfo) (decl : ClassDecl) : PyClass :=
  let metaAbstract := ((decl.nsAbstract <|> base.metaAbstract)).getD false
  let metaDbTable0 := ((decl.nsDbTable <|> base.metaDbTable)).getD none
  let classDefaults := mergeDicts base.classDefaults decl.defaults
  if metaAbstract then
    { name := decl.name, metaAbstract := true, metaDbTable := metaDbTable0,
      ownMeta := none, inheritedMeta := base.effMeta, classDefaults := classDefaults }
  else
    let table := metaDbTable0.getD (strToLower decl.name)
    { name := decl.name, metaAbstract := false, metaDbTable := some table,
      ownMeta := some { table_name := table,
                        fields := deriveFields decl.anns decl.methods,
                        abstract := false },
      inheritedMeta := base.effMeta, classDefaults := classDefaults }

/-- The error taxonomy of the ORM layer. -/
inductive OrmError where
  | unsupportedOperator (op : String)
  | unknownField (field : String) (model : String)
  | abstractModel (model : String)
  | notConfigured
  | noId
  | validationFailed (msg : String)
deriving DecidableEq

/-- QueryBuilder.OPERATORS from query.py. -/
def OPERATORS : List (String × String) :=
  [("__exact", "="), ("__gt", ">"), ("__lt", "<"), ("__like", "LIKE")]

/-- Substring test for a double underscore, modelling the Python
membership test of the two-character separator in a key. -/
def containsDunder : List Char → Bool
  | [] => false
  | [_] => false
  | a :: b :: rest =>
    ((decide (a = '_')) && (decide (b = '_'))) || containsDunder (b :: rest)

/-- str.rsplit at the last occurrence of the double underscore with at
most one split, modelling the Python builtin: the tail is preferred, so
the returned suffix follows the rightmost occurrence. -/
def rsplitDunder : List Char → Option (List Char × List Char)
  | [] => none
  | c :: rest =>
    match rsplitDunder rest with
    | some (pre, suf) => some (c :: pre, suf)
    | none =>
      match rest with
      | b :: suf => if c = '_' ∧ b = '_' then some ([], suf) else none
      | [] => none

/-- QueryBuilder.parse_filter_key (query.py lines 50-80): a key without
the separator is the field itself under exact; otherwise the key is
rsplit at the last separator, the suffix is prefixed back with the
separator and checked against OPERATORS, and an unrecognized suffix
falls back to the whole key under exact. -/
def parse_filter_key (key : String) : String × String :=
  if containsDunder key.data = false then (key, "__exact")
  else
    match rsplitDunder key.data with
    | some (pre, suf) =>
      let operator := "__" ++ String.mk suf
      if (dictGet OPERATORS operator).isSome then (String.mk pre, operator)
      else (key, "__exact")
    | none => (key, "__exact")

/-- One translated filter condition: the field name, the sql comparison
symbol and the parameter value. -/
structure Condition where
  field : String
  sym : String
  value : PyValue
deriving DecidableEq

/-- The textual clause a condition contributes to the WHERE string. -/
def condClause (c : Condition) : String :=
  c.field ++ " " ++ c.sym ++ " ?"

/-- The loop body of QueryBuilder.parse_filters (query.py lines 36-44):
each key is parsed, the operator is looked up in OPERATORS (raising on
an unknown operator), and one condition per key is accumulated in the
caller-supplied order. -/
def parseConditions : List (String × PyValue) → Except OrmError (List Condition)
  | [] => Except.ok []
  | (key, value) :: rest =>
    match dictGet OPERATORS (parse_filter_key key).2 with
    | none => Except.error (OrmError.unsupportedOperator (parse_filter_key key).2)
    | some sql_operator =>
      match parseConditions rest with
      | Except.error e => Except.error e
      | Except.ok cs =>
        Except.ok ({ field := (parse_filter_key key).1, sym := sql_operator,
                     value := value } :: cs)

/-- QueryBuilder.parse_filters (query.py lines 15-48): the WHERE string
joins the clauses with AND, and an empty filter set yields the always
true predicate 1=1. -/
def parse_filters (kwargs : List (String × PyValue)) :
    Except OrmError (String × List Condition) :=
  match parseConditions kwargs with
  | Except.error e => Except.error e
  | Except.ok conds =>
    Except.ok
      (if conds.isEmpty then "1=1"
       else String.intercalate " AND " (conds.map condClause), conds)

/-- The field validation loop of Model.filter (base_model.py lines
487-490): the first key whose parsed field name is neither a declared
field nor id triggers the unknown-field error. -/
def firstUnknown (m : MetaDict) : List (String × PyValue) → Option String
  | [] => none
  | (key, _) :: rest =>
    let f := (parse_filter_key key).1
    if dictGet m.fields f = none ∧ ¬(f = "id") then some f
    else firstUnknown m rest

/-- A stored row: the identity column plus the named column values. -/
structure Row where
  id : Int
  vals : List (String × PyValue)
deriving DecidableEq

/-- A table of the embedded engine, with the next identity to assign. -/
structure Table where
  rows : List Row
  nextId : Int
deriving DecidableEq

/-- The storage engine state: tables by name. -/
structure DB where
  tables : List (String × Table)
deriving DecidableEq

/-- Statements executed on the connection, recorded as an execution
trace of each operation. -/
inductive Stmt where
  | masterCheck (table : String)
  | createTable (table : String) (columns : List (String × String))
  | selectStmt (table : String) (whereClause : Option String) (params : List PyValue)
  | insertStmt (table : String) (columns : List String) (params : List PyValue)
  | updateStmt (table : String) (columns : List String) (params : List PyValue) (id : Int)
  | deleteStmt (table : String) (id : Int)
deriving DecidableEq

/-- Data statements touch row data; the sqlite_master existence check
and table creation are the lazy table-ensuring statements. -/
def Stmt.isData : Stmt → Bool
  | Stmt.masterCheck _ => false
  | Stmt.createTable _ _ => false
  | _ => true

/-- The sqlite3 driver adapts Python booleans to the integers 1 and 0
when binding parameters. -/
def adaptParam : PyValue → PyValue
  | PyValue.bool b => PyValue.int (if b then 1 else 0)
  | v => v

def DB.getTable (db : DB) (t : String) : Option Table :=
  dictGet db.tables t

def DB.setTable (db : DB) (t : String) (tbl : Table) : DB :=
  { tables := dictSet db.tables t tbl }

/-- CREATE TABLE IF NOT EXISTS: a no-op when the table exists. -/
def DB.createTable (db : DB) (t : String) : DB :=
  match db.getTable t with
  | some _ => db
  | none => db.setTable t { rows := [], nextId := 1 }

/-- INSERT: assigns the next identity and returns it as lastrowid.  All
ORM call sites ensure the table first; a missing table is created
implicitly here rather than modelling the engine error. -/
def DB.insertInto (db : DB) (t : String) (cols : List String) (vals : List PyValue) :
    DB × Int :=
  let tbl := (db.getTable t).getD { rows := [], nextId := 1 }
  let row : Row := { id := tbl.nextId, vals := cols.zip (vals.map adaptParam) }
  (db.setTable t { rows := tbl.rows ++ [row], nextId := tbl.nextId + 1 }, tbl.nextId)

/-- DELETE FROM t WHERE id = i. -/
def DB.deleteFrom (db : DB) (t : String) (i : Int) : DB :=
  match db.getTable t with
  | none => db
  | some tbl =>
    db.setTable t
      { tbl with rows := tbl.rows.filter (fun r => !(decide (r.id = i))) }

/-- UPDATE t SET cols WHERE id = i. -/
def DB.updateWhereId (db : DB) (t : String) (i : Int) (dd : List (String × PyValue)) : DB :=
  match db.getTable t with
  | none => db
  | some tbl =>
    db.setTable t
      { tbl with rows := tbl.rows.map fun r =>
          if r.id = i then
            { r with vals := dd.foldl (fun a q => dictSet a q.1 (adaptParam q.2)) r.vals }
          else r }

/-- The rows of a table, empty when the table does not exist. -/
def rowsOf (db : DB) (t : String) : List Row :=
  match db.getTable t with
  | none => []
  | some tbl => tbl.rows

/-- The sqlite LIKE pattern matcher over character lists: percent
matches any run, underscore any single character, letters match case
insensitively. -/
def likeMatch : List Char → List Char → Bool
  | [], [] => true
  | [], _ :: _ => false
  | '%' :: ps, [] => likeMatch ps []
  | '%' :: ps, c :: ss => likeMatch ps (c :: ss) || likeMatch ('%' :: ps) ss
  | '_' :: ps, _ :: ss => likeMatch ps ss
  | '_' :: _, [] => false
  | p :: ps, c :: ss => (decide (charLower p = charLower c)) && likeMatch ps ss
  | _ :: _, [] => false
termination_by p s => p.length + s.length

/-- Equality comparison of the engine within one storage class. -/
def pyEqB : PyValue → PyValue → Bool
  | PyValue.int a, PyValue.int b => decide (a = b)
  | PyValue.str a, PyValue.str b => decide (a = b)
  | PyValue.float a, PyValue.float b => decide (a = b)
  | PyValue.bool a, PyValue.bool b => decide (a = b)
  | _, _ => false

/-- Order comparison of the engine within one storage class; the claims
only exercise integer and text comparisons. -/
def pyLtB : PyValue → PyValue → Bool
  | PyValue.int a, PyValue.int b => decide (a < b)
  | PyValue.str a, PyValue.str b => decide (a < b)
  | PyValue.float a, PyValue.float b => decide (a < b)
  | _, _ => false

/-- Evaluation of one WHERE condition on a row, with sqlite three-valued
logic collapsed to Bool: any comparison against NULL does not match. -/
def evalCond (r : Row) (c : Condition) : Bool :=
  let stored := if c.field = "id" then PyValue.int r.id
                else (dictGet r.vals c.field).getD PyValue.none_
  let w := adaptParam c.value
  match stored, w with
  | PyValue.none_, _ => false
  | _, PyValue.none_ => false
  | s, v =>
    if c.sym = "=" then pyEqB s v
    else if c.sym = ">" then pyLtB v s
    else if c.sym = "<" then pyLtB s v
    else if c.sym = "LIKE" then
      match s, v with
      | PyValue.str a, PyValue.str p => likeMatch p.data a.data
      | _, _ => false
    else false

/-- A conjunction of conditions, as produced by the AND join. -/
def evalConds (conds : List Condition) (r : Row) : Bool :=
  conds.all (evalCond r)

/-- The tuple a SELECT returns for a row, in column order. -/
def rowTuple (column_names : List String) (r : Row) : List PyValue :=
  column_names.map fun cn =>
    if cn = "id" then PyValue.int r.id
    else (dictGet r.vals cn).getD PyValue.none_

/-- The stored value of one column of the row with the given identity. -/
def storedValue (db : DB) (t : String) (i : Int) (col : String) : Option PyValue :=
  match (rowsOf db t).filter (fun r => decide (r.id = i)) with
  | [] => none
  | r :: _ => dictGet r.vals col

/-- A record instance: the identity (absent until persisted) and the
instance attribute dict. -/
structure Instance where
  id : Option Int
  attrs : List (String × PyValue)
deriving DecidableEq

/-- getattr with a default: the instance dict first, then the class
attribute defaults. -/
def Instance.getattr (inst : Instance) (cls : PyClass) (name : String)
    (dflt : PyValue) : PyValue :=
  match dictGet inst.attrs name with
  | some v => v
  | none =>
    match dictGet cls.classDefaults name with
    | some v => v
    | none => dflt

/-- Model.__init__ (base_model.py lines 95-119): pop id from kwargs,
map positional arguments onto declared field names in metadata order,
then set every declared field from kwargs or to None, then set all
remaining kwargs as plain attributes. -/
def Model.init (cls : PyClass) (args : List PyValue)
    (kwargs0 : List (String × PyValue)) : Instance :=
  let p := dictPop kwargs0 "id"
  let idv : Option Int := match p.1 with
    | some (PyValue.int n) => some n
    | _ => none
  let kwargs1 := p.2
  match cls.effMeta with
  | none =>
    { id := idv, attrs := kwargs1.foldl (fun acc q => dictSet acc q.1 q.2) [] }
  | some m =>
    let fieldNames := m.fields.map Prod.fst
    let kwargs2 := (fieldNames.zip args).foldl (fun acc q => dictSet acc q.1 q.2) kwargs1
    let attrs1 := m.fields.foldl
      (fun acc f => dictSet acc f.1 ((dictGet kwargs2 f.1).getD PyValue.none_)) []
    let attrs2 := kwargs2.foldl (fun acc q => dictSet acc q.1 q.2) attrs1
    { id := idv, attrs := attrs2 }

/-- Model._to_db_dict (base_model.py lines 244-257): every declared
field in metadata order, encoded through to_db_value. -/
def Model.to_db_dict (cls : PyClass) (m : MetaDict) (inst : Instance) :
    List (String × PyValue) :=
  m.fields.map fun f =>
    (f.1, to_db_value (inst.getattr cls f.1 PyValue.none_) f.2.tyAnn)

/-- Model._from_db_row (base_model.py lines 259-276): id is taken raw,
declared columns are decoded, unknown columns are dropped, and the
instance is built through the constructor. -/
def Model.from_db_row (cls : PyClass) (m : MetaDict) (row : List PyValue)
    (column_names : List String) : Instance :=
  let data := (column_names.zip row).foldl
    (fun acc q =>
      if q.1 = "id" then dictSet acc "id" q.2
      else
        match dictGet m.fields q.1 with
        | some fm => dictSet acc q.1 (from_db_value q.2 fm.tyAnn)
        | none => acc)
    []
  Model.init cls [] data

/-- Model._validate: runs the user-supplied validation hook if the class
defines one. -/
def hookRun (hook : Option (Instance → Except OrmError Unit)) (inst : Instance) :
    Except OrmError Unit :=
  match hook with
  | some v => v inst
  | none => Except.ok ()

/-- The column list of _create_table_sql (base_model.py lines 180-205):
the identity column first, then the declared fields in metadata order. -/
def create_table_columns (m : MetaDict) : List (String × String) :=
  ("id", "INTEGER PRIMARY KEY AUTOINCREMENT") :: m.fields.map fun f => (f.1, f.2.sqlite_type)

/-- Model._ensure_table on a configured connection (base_model.py lines
231-237 and 207-229): the sqlite_master existence check always executes;
the CREATE TABLE statement executes only when the table is missing. -/
def ensureTableD (m : MetaDict) (db : DB) : DB × List Stmt :=
  if (db.getTable m.table_name).isSome then (db, [Stmt.masterCheck m.table_name])
  else (db.createTable m.table_name,
        [Stmt.masterCheck m.table_name,
         Stmt.createTable m.table_name (create_table_columns m)])

/-- Model.create (base_model.py lines 278-315).  The result triple is
the returned value or error, the connection state after the call, and
the trace of executed statements.  The effMeta match together with the
abstract test mirrors the is_abstract guard. -/
def Model.create (cls : PyClass) (hook : Option (Instance → Except OrmError Unit))
    (dbc : Option DB) (kwargs : List (String × PyValue)) :
    Except OrmError Instance × Option DB × List Stmt :=
  match cls.effMeta with
  | none => (Except.error (OrmError.abstractModel cls.name), dbc, [])
  | some m =>
    if m.abstract then (Except.error (OrmError.abstractModel cls.name), dbc, [])
    else
      let inst := Model.init cls [] kwargs
      match hookRun hook inst with
      | Except.error e => (Except.error e, dbc, [])
      | Except.ok _ =>
        match dbc with
        | none => (Except.error OrmError.notConfigured, dbc, [])
        | some db =>
          let et := ensureTableD m db
          let dd := Model.to_db_dict cls m inst
          let cols := dd.map Prod.fst
          let vals := dd.map Prod.snd
          let ins := (et.1).insertInto m.table_name cols vals
          (Except.ok { inst with id := some ins.2 }, some ins.1,
           et.2 ++ [Stmt.insertStmt m.table_name cols vals])

/-- Model.save (base_model.py lines 317-359): insert when the identity
is absent, update otherwise; the saved instance is returned with its
identity set. -/
def Model.save (cls : PyClass) (hook : Option (Instance → Except OrmError Unit))
    (dbc : Option DB) (inst : Instance) :
    Except OrmError Instance × Option DB × List Stmt :=
  match cls.effMeta with
  | none => (Except.error (OrmError.abstractModel cls.name), dbc, [])
  | some m =>
    if m.abstract then (Except.error (OrmError.abstractModel cls.name), dbc, [])
    else
      match hookRun hook inst with
      | Except.error e => (Except.error e, dbc, [])
      | Except.ok _ =>
        match dbc with
        | none => (Except.error OrmError.notConfigured, dbc, [])
        | some db =>
          let et := ensureTableD m db
          let dd := Model.to_db_dict cls m inst
          match inst.id with
          | none =>
            let ins := (et.1).insertInto m.table_name (dd.map Prod.fst) (dd.map Prod.snd)
            (Except.ok { inst with id := some ins.2 }, some ins.1,
             et.2 ++ [Stmt.insertStmt m.table_name (dd.map Prod.fst) (dd.map Prod.snd)])
          | some i =>
            let db2 := (et.1).updateWhereId m.table_name i dd
            (Except.ok inst, some db2,
             et.2 ++ [Stmt.updateStmt m.table_name (dd.map Prod.fst) (dd.map Prod.snd) i])

/-- Model.delete (base_model.py lines 361-381): missing identity is a
usage error raised before the connection is touched; otherwise the row
is removed and the in-memory identity cleared. -/
def Model.delete (cls : PyClass) (dbc : Option DB) (inst : Instance) :
    Except OrmError Instance × Option DB × List Stmt :=
  match cls.effMeta with
  | none => (Except.error (OrmError.abstractModel cls.name), dbc, [])
  | some m =>
    if m.abstract then (Except.error (OrmError.abstractModel cls.name), dbc, [])
    else
      match inst.id with
      | none => (Except.error OrmError.noId, dbc, [])
      | some i =>
        match dbc with
        | none => (Except.error OrmError.notConfigured, dbc, [])
        | some db =>
          (Except.ok { inst with id := none },
           some (db.deleteFrom m.table_name i),
           [Stmt.deleteStmt m.table_name i])

/-- Model.get (base_model.py lines 383-416): absence is a None result,
not an error. -/
def Model.get (cls : PyClass) (dbc : Option DB) (idArg : Int) :
    Except OrmError (Option Instance) × Option DB × List Stmt :=
  match cls.effMeta with
  | none => (Except.error (OrmError.abstractModel cls.name), dbc, [])
  | some m =>
    if m.abstract then (Except.error (OrmError.abstractModel cls.name), dbc, [])
    else
      match dbc with
      | none => (Except.error OrmError.notConfigured, dbc, [])
      | some db =>
        let et := ensureTableD m db
        let column_names := "id" :: m.fields.map Prod.fst
        let found := (rowsOf et.1 m.table_name).filter (fun r => decide (r.id = idArg))
        let res := match found with
          | [] => none
          | r :: _ => some (Model.from_db_row cls m (rowTuple column_names r) column_names)
        (Except.ok res, some et.1,
         et.2 ++ [Stmt.selectStmt m.table_name (some "id = ?") [PyValue.int idArg]])

/-- Model.all (base_model.py lines 418-445). -/
def Model.all (cls : PyClass) (dbc : Option DB) :
    Except OrmError (List Instance) × Option DB × List Stmt :=
  match cls.effMeta with
  | none => (Except.error (OrmError.abstractModel cls.name), dbc, [])
  | some m =>
    if m.abstract then (Except.error (OrmError.abstractModel cls.name), dbc, [])
    else
      match dbc with
      | none => (Except.error OrmError.notConfigured, dbc, [])
      | some db =>
        let et := ensureTableD m db
        let column_names := "id" :: m.fields.map Prod.fst
        let rows := rowsOf et.1 m.table_name
        (Except.ok (rows.map fun r =>
           Model.from_db_row cls m (rowTuple column_names r) column_names),
         some et.1,
         et.2 ++ [Stmt.selectStmt m.table_name none []])

/-- Model.filter (base_model.py lines 447-499): the table is ensured
first, the filters are parsed, then the field names are validated, and
only then does the data SELECT execute. -/
def Model.filter (cls : PyClass) (dbc : Option DB)
    (kwargs : List (String × PyValue)) :
    Except OrmError (List Instance) × Option DB × List Stmt :=
  match cls.effMeta with
  | none => (Except.error (OrmError.abstractModel cls.name), dbc, [])
  | some m =>
    if m.abstract then (Except.error (OrmError.abstractModel cls.name), dbc, [])
    else
      match dbc with
      | none => (Except.error OrmError.notConfigured, dbc, [])
      | some db =>
        let et := ensureTableD m db
        match parse_filters kwargs with
        | Except.error e => (Except.error e, some et.1, et.2)
        | Except.ok wc =>
          match firstUnknown m kwargs with
          | some f => (Except.error (OrmError.unknownField f cls.name), some et.1, et.2)
          | none =>
            let column_names := "id" :: m.fields.map Prod.fst
            let rows := (rowsOf et.1 m.table_name).filter (fun r => evalConds wc.2 r)
            (Except.ok (rows.map fun r =>
               Model.from_db_row cls m (rowTuple column_names r) column_names),
             some et.1,
             et.2 ++ [Stmt.selectStmt m.table_name (some wc.1)
                        ((wc.2.map Condition.value).map adaptParam)])

/-- The base information the Model root class sees: object has no Meta
and no metadata. -/
def objectBase : BaseInfo :=
  { metaAbstract := none, metaDbTable := none, effMeta := none, classDefaults := [] }

/-- The declaration of the Model root class itself: Meta with abstract
False and db_table None, the annotated attributes id and _db (both
always skipped by name). -/
def modelRootDecl : ClassDecl :=
  { name := "Model", nsAbstract := some false, nsDbTable := some none,
    anns := [("id", TyAnn.generic [PyTy.int, PyTy.noneType])],
    methods := [], defaults := [] }

/-- The processed Model root class: its _meta has table name model, no
fields, abstract False. -/
def ModelC : PyClass := modelMetaNew objectBase modelRootDecl

/-- The base information a direct subclass of a processed class sees. -/
def baseInfoOf (c : PyClass) : BaseInfo :=
  { metaAbstract := some c.metaAbstract, metaDbTable := some c.metaDbTable,
    effMeta := c.effMeta, classDefaults := c.classDefaults }

/-- The User model of the demonstration script: name and email text
fields, an integer age field with class default 18, table users. -/
def UserDecl : ClassDecl :=
  { name := "User", nsAbstract := none, nsDbTable := some (some "users"),
    anns := [("name", TyAnn.plain PyTy.str),
                    ("email", TyAnn.plain PyTy.str),
                    ("age", TyAnn.plain PyTy.int)],
    methods := [], defaults := [("age", PyValue.int 18)] }

def UserC : PyClass := modelMetaNew (baseInfoOf ModelC) UserDecl

/-- The metadata UserC derives, written out for use in theorems. -/
def userMeta : MetaDict :=
  { table_name := "users",
    fields :=
      [("name", { tyAnn := TyAnn.plain PyTy.str,
                  sqlite_type := "TEXT", python_type := PyTy.str }),
       ("email", { tyAnn := TyAnn.plain PyTy.str,
                   sqlite_type := "TEXT", python_type := PyTy.str }),
       ("age", { tyAnn := TyAnn.plain PyTy.int,
                 sqlite_type := "INTEGER", python_type := PyTy.int })],
    abstract := false }

/-- A model declared with the abstract override set to true, directly
under Model. -/
def AbstractBDecl : ClassDecl :=
  { name := "AbstractBase", nsAbstract := some true, nsDbTable := none,
    anns := [], methods := [], defaults := [] }

def AbstractB : PyClass := modelMetaNew (baseInfoOf ModelC) AbstractBDecl

def emptyDB : DB := { tables := [] }

/-- Scenario of claim C4, step 1: create Alice with age 25. -/
def c4_s1 :=
  Model.create UserC none (some emptyDB)
    [("name", PyValue.str "Alice"), ("email", PyValue.str "alice@mail.com"),
     ("age", PyValue.int 25)]

def c4_db1 : Option DB := c4_s1.2.1

/-- Scenario step 2: create Bob omitting the age value. -/
def c4_s2 :=
  Model.create UserC none c4_db1
    [("name", PyValue.str "Bob"), ("email", PyValue.str "bob@mail.com")]

def c4_db2 : Option DB := c4_s2.2.1

/-- Scenario step 3: filter age strictly greater than 18. -/
def c4_filt := Model.filter UserC c4_db2 [("age__gt", PyValue.int 18)]

def c4_alice : Instance := (c4_s1.1).toOption.getD { id := none, attrs := [] }

/-- Scenario step 4: delete the Alice row. -/
def c4_s3 := Model.delete UserC c4_db2 c4_alice

def c4_db3 : Option DB := c4_s3.2.1

/-- Scenario step 5: get on the former Alice identity. -/
def c4_g := Model.get UserC c4_db3 1

/-- Scenario step 6: all remaining rows. -/
def c4_all := Model.all UserC c4_db3

/-- A user-supplied validation hook that rejects every instance. -/
def badHook : Option (Instance → Except OrmError Unit) :=
  some fun _ => Except.error (OrmError.validationFailed "rejected")

/-- A populated database for the delete claim: two user rows. -/
def c9_db : DB :=
  { tables := [("users",
      { rows := [{ id := 5, vals := [("name", PyValue.str "Eve")] },
                 { id := 6, vals := [("name", PyValue.str "Sam")] }],
        nextId := 7 })] }

/-! Helper lemmas shared by the claim theorems. -/

/-- One-step unfolding equation of rsplitDunder on a cons cell. -/
theorem rsplitDunder_cons (c : Char) (rest : List Char) :
    rsplitDunder (c :: rest) =
      match rsplitDunder rest with
      | some (pre, suf) => some (c :: pre, suf)
      | none =>
        match rest with
        | b :: suf => if c = '_' ∧ b = '_' then some ([], suf) else none
        | [] => none := rfl

theorem contains_false_rsplit_none :
    ∀ l : List Char, containsDunder l = false → rsplitDunder l = none := by
  intro l
  induction l with
  | nil => intro _; rfl
  | cons c rest ih =>
    intro h
    cases rest with
    | nil => rfl
    | cons b rest2 =>
      rw [containsDunder] at h
      have h1 := (Bool.or_eq_false_iff.mp h).1
      have h2 := (Bool.or_eq_false_iff.mp h).2
      have ihr := ih h2
      have hcb : ¬(c = '_' ∧ b = '_') := by
        intro hx
        rw [hx.1, hx.2] at h1
        simp at h1
      rw [rsplitDunder_cons, ihr]
      simp [hcb]

theorem containsDunder_append (pre suf : List Char) :
    containsDunder (pre ++ '_' :: '_' :: suf) = true := by
  induction pre with
  | nil => simp [containsDunder]
  | cons c pre2 ih =>
    cases pre2 with
    | nil => simp [containsDunder]
    | cons d pre3 =>
      simp only [List.cons_append] at ih ⊢
      rw [containsDunder, ih]
      simp

theorem rsplit_append (pre suf : List Char) (hs : containsDunder suf = false)
    (hh : ¬ suf.head? = some '_') :
    rsplitDunder (pre ++ '_' :: '_' :: suf) = some (pre, suf) := by
  induction pre with
  | nil =>
    have h1 : rsplitDunder suf = none := contains_false_rsplit_none suf hs
    have h2 : rsplitDunder ('_' :: suf) = none := by
      cases suf with
      | nil => rfl
      | cons b s2 =>
        have hb : ¬(b = '_') := by
          intro hx
          exact hh (by rw [hx]; rfl)
        rw [rsplitDunder_cons, h1]
        simp [hb]
    show rsplitDunder ('_' :: '_' :: suf) = some ([], suf)
    rw [rsplitDunder_cons, h2]
    simp
  | cons c pre2 ih =>
    rw [List.cons_append, rsplitDunder_cons, ih]

theorem parse_key_known (key : String) :
    (dictGet OPERATORS (parse_filter_key key).2).isSome = true := by
  unfold parse_filter_key
  split
  · show (dictGet OPERATORS "__exact").isSome = true
    decide
  · split
    · dsimp only
      split
      · next h => simpa using h
      · show (dictGet OPERATORS "__exact").isSome = true
        decide
    · show (dictGet OPERATORS "__exact").isSome = true
      decide

theorem parseConditions_ok (kwargs : List (String × PyValue)) :
    ∃ cs, parseConditions kwargs = Except.ok cs := by
  induction kwargs with
  | nil => exact ⟨[], rfl⟩
  | cons kv rest ih =>
    obtain ⟨cs, hcs⟩ := ih
    obtain ⟨k, v⟩ := kv
    have hk := parse_key_known k
    cases hop : dictGet OPERATORS (parse_filter_key k).2 with
    | none => rw [hop] at hk; simp at hk
    | some sym =>
      refine ⟨{ field := (parse_filter_key k).1, sym := sym, value := v } :: cs, ?_⟩
      simp only [parseConditions, hop, hcs]

theorem parse_filters_ok (kwargs : List (String × PyValue)) :
    ∃ r, parse_filters kwargs = Except.ok r := by
  obtain ⟨cs, hcs⟩ := parseConditions_ok kwargs
  refine ⟨(if cs.isEmpty then "1=1"
           else String.intercalate " AND " (cs.map condClause), cs), ?_⟩
  unfold parse_filters
  rw [hcs]

theorem ensure_trace_nondata (m : MetaDict) (db : DB) :
    ∀ s ∈ (ensureTableD m db).2, s.isData = false := by
  unfold ensureTableD
  split
  · intro s hs
    simp at hs
    rw [hs]
    rfl
  · intro s hs
    simp at hs
    rcases hs with h | h <;> rw [h] <;> rfl

theorem filter_evalConds_nil (rows : List Row) :
    rows.filter (fun r => evalConds [] r) = rows := by
  induction rows with
  | nil => rfl
  | cons r rest ih => simp [List.filter, evalConds, ih]

theorem dictGet_dictSet_self {α : Type} (d : List (String × α)) (k : String) (v : α) :
    dictGet (dictSet d k v) k = some v := by
  induction d with
  | nil => simp [dictSet, dictGet]
  | cons p rest ih =>
    obtain ⟨k1, v1⟩ := p
    by_cases h : k1 = k
    · simp [dictSet, dictGet, h]
    · simp [dictSet, dictGet, h, ih]

theorem rowsOf_deleteFrom (db : DB) (t : String) (i : Int) :
    rowsOf (db.deleteFrom t i) t =
      (rowsOf db t).filter (fun r => !(decide (r.id = i))) := by
  cases h : db.getTable t with
  | none =>
    have e : db.deleteFrom t i = db := by
      unfold DB.deleteFrom
      rw [h]
    rw [e]
    unfold rowsOf
    rw [h]
    simp
  | some tbl =>
    have e : db.deleteFrom t i =
        db.setTable t
          { tbl with rows := tbl.rows.filter (fun r => !(decide (r.id = i))) } := by
      unfold DB.deleteFrom
      rw [h]
    have h2 : (db.setTable t
        { tbl with rows := tbl.rows.filter (fun r => !(decide (r.id = i))) }).getTable t =
        some { tbl with rows := tbl.rows.filter (fun r => !(decide (r.id = i))) } := by
      unfold DB.setTable DB.getTable
      exact dictGet_dictSet_self db.tables t _
    rw [e]
    unfold rowsOf
    rw [h2, h]

/-! Claim theorems. -/

/-- Claim C1, counterexample: on the User model a filter call with the
unknown key bogus does raise the unknown-field error, but the execution
trace of the invocation is not empty — the lazy table-ensuring
statements already ran on the connection, so the claim that execute is
never called during such a filter() invocation is false. -/
theorem C1_counterexample :
    (Model.filter UserC (some emptyDB) [("bogus", PyValue.int 1)]).1 =
      Except.error (OrmError.unknownField "bogus" "User") ∧
    (Model.filter UserC (some emptyDB) [("bogus", PyValue.int 1)]).2.2 =
      [Stmt.masterCheck "users",
       Stmt.createTable "users" (create_table_columns userMeta)] ∧
    ¬ (Model.filter UserC (some emptyDB) [("bogus", PyValue.int 1)]).2.2 = [] :=
  ⟨rfl, rfl, by decide⟩

/-- Claim C1, amended: for every non-abstract model with a configured
connection, a filter call one of whose keys names neither a declared
field nor the identity raises the unknown-field error of the first such
key before the data SELECT executes: no data statement (select, insert,
update or delete) appears in the trace, only the lazy table-ensuring
statements. -/
theorem C1_amended (cls : PyClass) (m : MetaDict) (db : DB)
    (kwargs : List (String × PyValue)) (f : String)
    (hm : cls.effMeta = some m) (hab : m.abstract = false)
    (hf : firstUnknown m kwargs = some f) :
    (Model.filter cls (some db) kwargs).1 =
      Except.error (OrmError.unknownField f cls.name) ∧
    ∀ s ∈ (Model.filter cls (some db) kwargs).2.2, s.isData = false := by
  obtain ⟨r, hr⟩ := parse_filters_ok kwargs
  have hall := ensure_trace_nondata m db
  unfold Model.filter
  rw [hm]
  simp only [hab, Bool.false_eq_true, if_false]
  rw [hr, hf]
  exact ⟨rfl, hall⟩

/-- Claim C1, witness for the amended theorem at a concrete input. -/
theorem C1_amended_witness :
    (Model.filter UserC (some emptyDB) [("missing", PyValue.int 0)]).1 =
      Except.error (OrmError.unknownField "missing" "User") ∧
    ∀ s ∈ (Model.filter UserC (some emptyDB) [("missing", PyValue.int 0)]).2.2,
      s.isData = false :=
  C1_amended UserC userMeta emptyDB [("missing", PyValue.int 0)] "missing" rfl rfl rfl

/-- Claim C2, code bug: a model declared with the abstract override set
to true derives no field metadata of its own (first conjunct, the part
of the claim that holds), but because the _meta attribute of the Model
root is still reachable by inheritance, is_abstract reports False, and
a persistence operation such as all() does not fail with a
configuration error: it runs SQL against the inherited table and
returns normally, contradicting the claim. -/
theorem C2_code_bug :
    AbstractB.ownMeta = none ∧
    AbstractB.is_abstract = false ∧
    (Model.all AbstractB (some emptyDB)).1 = Except.ok [] ∧
    (Model.all AbstractB (some emptyDB)).2.2 =
      [Stmt.masterCheck "model",
       Stmt.createTable "model" [("id", "INTEGER PRIMARY KEY AUTOINCREMENT")],
       Stmt.selectStmt "model" none []] :=
  ⟨rfl, rfl, rfl, rfl⟩

/-- Claim C3, counterexample: a union of three distinct non-None
alternatives does not yield the no-field-type signal — it is mapped
through its first alternative and the field is included in the derived
metadata, contradicting the claim for unions of more than two members. -/
theorem C3_counterexample :
    get_field_type (TyAnn.generic [PyTy.int, PyTy.str, PyTy.float]) =
      some { sqlite_type := "INTEGER", python_type := PyTy.int } ∧
    deriveFields [("extra", TyAnn.generic [PyTy.int, PyTy.str, PyTy.float])] [] =
      [("extra", { tyAnn := TyAnn.generic [PyTy.int, PyTy.str, PyTy.float],
                   sqlite_type := "INTEGER", python_type := PyTy.int })] :=
  ⟨rfl, rfl⟩

/-- Claim C3, amended: a union of exactly two non-null alternatives
yields the no-field-type signal and such a field is excluded from the
derived metadata; a union tyAnn with three or more alternatives is
instead mapped through its first alternative. -/
theorem C3_amended (a b : PyTy) (ha : ¬ a = PyTy.noneType) (hb : ¬ b = PyTy.noneType)
    (name : String) (methods : List String) (c : PyTy) (rest : List PyTy)
    (hr : 2 ≤ rest.length) :
    get_field_type (TyAnn.generic [a, b]) = none ∧
    deriveFields [(name, TyAnn.generic [a, b])] methods = [] ∧
    get_field_type (TyAnn.generic (c :: rest)) = TYPE_MAPPING c := by
  have da : decide (a = PyTy.noneType) = false := decide_eq_false ha
  have dbb : decide (b = PyTy.noneType) = false := decide_eq_false hb
  have h1 : get_field_type (TyAnn.generic [a, b]) = none := by
    unfold get_field_type
    simp [da, dbb, typeMappingGet]
  refine ⟨h1, ?_, ?_⟩
  · by_cases hskip : startsWithUnderscore name = true ∨ name = "Meta" ∨ name = "id" ∨ name ∈ methods
    · simp [deriveFields, hskip]
    · simp [deriveFields, hskip, h1]
  · have hlen1 : ¬ (rest.length = 1) := by omega
    unfold get_field_type
    simp [hlen1, typeMappingGet]

/-- Claim C3, witness for the amended theorem at concrete inputs. -/
theorem C3_witness :
    get_field_type (TyAnn.generic [PyTy.int, PyTy.str]) = none ∧
    deriveFields [("extra2", TyAnn.generic [PyTy.int, PyTy.str])] [] = [] ∧
    get_field_type (TyAnn.generic [PyTy.bool, PyTy.str, PyTy.int]) =
      TYPE_MAPPING PyTy.bool :=
  C3_amended PyTy.int PyTy.str (by decide) (by decide) "extra2" [] PyTy.bool
    [PyTy.str, PyTy.int] (by decide)

/-- Claim C4, code bug evidence: in the specified scenario the row
created while omitting the age value stores NULL, not the declared
default 18 — the constructor sets every omitted declared field to None,
so the class-level default is never consulted.  The remaining steps of
the scenario do hold: the age filter returns exactly the Alice row, and
after deleting it, get on her former identity is absent while all()
returns exactly the Bob row. -/
theorem C4_code_bug :
    storedValue (c4_db2.getD emptyDB) "users" 2 "age" = some PyValue.none_ ∧
    (c4_filt.1.toOption.getD []).map Instance.id = [some 1] ∧
    c4_g.1 = Except.ok none ∧
    (c4_all.1.toOption.getD []).map Instance.id = [some 2] :=
  ⟨rfl, rfl, rfl, rfl⟩

/-- Claim C5: for every tyAnn with a field type and every value of
that field type, decoding the encoded value gives the value back
(booleans round-trip through their 1 and 0 storage form), and both
codec directions propagate None unchanged for every tyAnn. -/
theorem C5_roundtrip (tyAnn : TyAnn) (ft : FieldType) (v : PyValue)
    (hft : get_field_type tyAnn = some ft)
    (hv : hasType v ft.python_type = true) :
    from_db_value (to_db_value v tyAnn) tyAnn = v ∧
    (∀ a2 : TyAnn, to_db_value PyValue.none_ a2 = PyValue.none_ ∧
       from_db_value PyValue.none_ a2 = PyValue.none_) := by
  constructor
  · unfold to_db_value from_db_value
    rw [hft]
    cases v with
    | none_ => simp [hasType] at hv
    | int n =>
      cases hpt : ft.python_type <;> rw [hpt] at hv <;> simp [hasType] at hv
      simp [FieldType.to_db_value, FieldType.from_db_value, hpt]
    | str s =>
      cases hpt : ft.python_type <;> rw [hpt] at hv <;> simp [hasType] at hv
      simp [FieldType.to_db_value, FieldType.from_db_value, hpt]
    | float bits =>
      cases hpt : ft.python_type <;> rw [hpt] at hv <;> simp [hasType] at hv
      simp [FieldType.to_db_value, FieldType.from_db_value, hpt]
    | bool b =>
      cases hpt : ft.python_type <;> rw [hpt] at hv <;> simp [hasType] at hv
      cases b <;> simp [FieldType.to_db_value, FieldType.from_db_value, hpt, truthy]
  · intro a2
    refine ⟨?_, ?_⟩
    · unfold to_db_value
      cases h : get_field_type a2 with
      | none => rfl
      | some ft2 => rfl
    · unfold from_db_value
      cases h : get_field_type a2 with
      | none => rfl
      | some ft2 => rfl

/-- Claim C5, witness: the boolean round trip at true and the None
passthrough at the integer tyAnn. -/
theorem C5_witness :
    from_db_value (to_db_value (PyValue.bool true) (TyAnn.plain PyTy.bool))
        (TyAnn.plain PyTy.bool) = PyValue.bool true ∧
    to_db_value PyValue.none_ (TyAnn.plain PyTy.int) = PyValue.none_ ∧
    from_db_value PyValue.none_ (TyAnn.plain PyTy.int) = PyValue.none_ := by
  have h := C5_roundtrip (TyAnn.plain PyTy.bool)
    { sqlite_type := "INTEGER", python_type := PyTy.bool } (PyValue.bool true) rfl rfl
  exact ⟨h.1, (h.2 (TyAnn.plain PyTy.int)).1, (h.2 (TyAnn.plain PyTy.int)).2⟩

/-- Claim C6: a key without the double-underscore separator is the
literal field name under the exact operator; a key whose portion after
the final separator forms a recognized operator parses to the portion
before that separator and the operator; a recognized-operator miss
makes the entire key, unrecognized suffix included, the literal field
name under exact. -/
theorem C6_parse_filter_key :
    (∀ key : String, containsDunder key.data = false →
       parse_filter_key key = (key, "__exact")) ∧
    (∀ pre suf : List Char, containsDunder suf = false → ¬ suf.head? = some '_' →
       (dictGet OPERATORS ("__" ++ String.mk suf)).isSome = true →
       parse_filter_key (String.mk (pre ++ '_' :: '_' :: suf)) =
         (String.mk pre, "__" ++ String.mk suf)) ∧
    (∀ pre suf : List Char, containsDunder suf = false → ¬ suf.head? = some '_' →
       (dictGet OPERATORS ("__" ++ String.mk suf)).isSome = false →
       parse_filter_key (String.mk (pre ++ '_' :: '_' :: suf)) =
         (String.mk (pre ++ '_' :: '_' :: suf), "__exact")) := by
  refine ⟨?_, ?_, ?_⟩
  · intro key h
    unfold parse_filter_key
    simp [h]
  · intro pre suf hs hh hop
    have hc := containsDunder_append pre suf
    have hr := rsplit_append pre suf hs hh
    unfold parse_filter_key
    simp only [hc, hr, hop]
    simp
  · intro pre suf hs hh hop
    have hc := containsDunder_append pre suf
    have hr := rsplit_append pre suf hs hh
    unfold parse_filter_key
    simp only [hc, hr, hop]
    simp

/-- Claim C6, witness: the key age__gt parses to the field age under the
gt operator. -/
theorem C6_witness :
    parse_filter_key (String.mk ("age".data ++ '_' :: '_' :: "gt".data)) =
      (String.mk "age".data, "__" ++ String.mk "gt".data) :=
  C6_parse_filter_key.2.1 "age".data "gt".data (by decide) (by decide) (by decide)

/-- Claim C7: an empty filter set translates to the always-true
predicate 1=1, which matches every row, so filter() with zero
conditions returns exactly the records of all() and leaves the same
connection state. -/
theorem C7_empty_filter :
    (∀ (cls : PyClass) (dbc : Option DB),
       (Model.filter cls dbc []).1 = (Model.all cls dbc).1 ∧
       (Model.filter cls dbc []).2.1 = (Model.all cls dbc).2.1) ∧
    parse_filters [] = Except.ok ("1=1", []) ∧
    (∀ r : Row, evalConds [] r = true) := by
  refine ⟨?_, rfl, fun r => rfl⟩
  intro cls dbc
  unfold Model.filter Model.all
  cases hm : cls.effMeta with
  | none => exact ⟨rfl, rfl⟩
  | some m =>
    cases hab : m.abstract with
    | true => simp [hab]
    | false =>
      cases dbc with
      | none =>
        simp only [hab, Bool.false_eq_true, if_false]
        exact ⟨trivial, trivial⟩
      | some db =>
        simp only [hab, Bool.false_eq_true, if_false]
        rw [show parse_filters [] = Except.ok ("1=1", []) from rfl]
        rw [show firstUnknown m [] = none from rfl]
        simp only [filter_evalConds_nil]
        exact ⟨trivial, trivial⟩

/-- Claim C8: when the user-supplied validation hook rejects the
instance, create() and save() abort with that error, execute no
statement at all (in particular no insert or update), and leave the
connection state unchanged. -/
theorem C8_validation_abort (cls : PyClass) (m : MetaDict)
    (hook : Option (Instance → Except OrmError Unit)) (dbc : Option DB)
    (kwargs : List (String × PyValue)) (inst : Instance) (e1 e2 : OrmError)
    (hm : cls.effMeta = some m) (hab : m.abstract = false)
    (h1 : hookRun hook (Model.init cls [] kwargs) = Except.error e1)
    (h2 : hookRun hook inst = Except.error e2) :
    Model.create cls hook dbc kwargs = (Except.error e1, dbc, []) ∧
    Model.save cls hook dbc inst = (Except.error e2, dbc, []) := by
  constructor
  · unfold Model.create
    rw [hm]
    simp only [hab, Bool.false_eq_true, if_false]
    rw [h1]
  · unfold Model.save
    rw [hm]
    simp only [hab, Bool.false_eq_true, if_false]
    rw [h2]

/-- Claim C8, witness: a hook rejecting every instance aborts a concrete
create and a concrete save with no statement executed. -/
theorem C8_witness :
    Model.create UserC badHook (some emptyDB) [("name", PyValue.str "Zoe")] =
      (Except.error (OrmError.validationFailed "rejected"), some emptyDB, []) ∧
    Model.save UserC badHook (some emptyDB) { id := some 7, attrs := [] } =
      (Except.error (OrmError.validationFailed "rejected"), some emptyDB, []) :=
  C8_validation_abort UserC userMeta badHook (some emptyDB)
    [("name", PyValue.str "Zoe")] { id := some 7, attrs := [] }
    (OrmError.validationFailed "rejected") (OrmError.validationFailed "rejected")
    rfl rfl rfl rfl

/-- Claim C9: on a non-abstract model, delete() with a set identity
removes exactly the rows bearing that identity and clears the identity
on the returned instance, while delete() without an identity raises the
usage error with an empty execution trace and an unchanged connection
state. -/
theorem C9_delete (cls : PyClass) (m : MetaDict) (db : DB) (inst : Instance)
    (i : Int) (hm : cls.effMeta = some m) (hab : m.abstract = false) :
    (inst.id = some i →
       Model.delete cls (some db) inst =
         (Except.ok { inst with id := none },
          some (db.deleteFrom m.table_name i),
          [Stmt.deleteStmt m.table_name i]) ∧
       rowsOf (db.deleteFrom m.table_name i) m.table_name =
         (rowsOf db m.table_name).filter (fun r => !(decide (r.id = i)))) ∧
    (inst.id = none →
       Model.delete cls (some db) inst = (Except.error OrmError.noId, some db, [])) := by
  constructor
  · intro hid
    refine ⟨?_, rowsOf_deleteFrom db m.table_name i⟩
    unfold Model.delete
    rw [hm]
    simp only [hab, Bool.false_eq_true, if_false]
    rw [hid]
  · intro hid
    unfold Model.delete
    rw [hm]
    simp only [hab, Bool.false_eq_true, if_false]
    rw [hid]

/-- Claim C9, witness: deleting the row with identity 5 from a concrete
two-row table. -/
theorem C9_witness :
    Model.delete UserC (some c9_db) { id := some 5, attrs := [("name", PyValue.str "Eve")] } =
      (Except.ok { id := none, attrs := [("name", PyValue.str "Eve")] },
       some (c9_db.deleteFrom "users" 5), [Stmt.deleteStmt "users" 5]) ∧
    rowsOf (c9_db.deleteFrom "users" 5) "users" =
      (rowsOf c9_db "users").filter (fun r => !(decide (r.id = 5))) :=
  (C9_delete UserC userMeta c9_db { id := some 5, attrs := [("name", PyValue.str "Eve")] }
    5 rfl rfl).1 rfl

/-- Claim C10: parse_filter_key always returns an operator contained in
the known operator table, so parse_filters never fails and no filter()
invocation can ever surface the unsupported-operator error. -/
theorem C10_operator_total :
    (∀ key : String, (dictGet OPERATORS (parse_filter_key key).2).isSome = true) ∧
    (∀ kwargs : List (String × PyValue), ∃ r, parse_filters kwargs = Except.ok r) ∧
    (∀ (cls : PyClass) (dbc : Option DB) (kwargs : List (String × PyValue))
       (op : String),
       ¬ (Model.filter cls dbc kwargs).1 =
           Except.error (OrmError.unsupportedOperator op)) := by
  refine ⟨parse_key_known, parse_filters_ok, ?_⟩
  intro cls dbc kwargs op
  unfold Model.filter
  cases hm : cls.effMeta with
  | none => simp
  | some m =>
    cases hab : m.abstract with
    | true => simp [hab]
    | false =>
      simp only [hab, Bool.false_eq_true, if_false]
      cases dbc with
      | none => simp
      | some db =>
        obtain ⟨r, hr⟩ := parse_filters_ok kwargs
        rw [hr]
        cases hfu : firstUnknown m kwargs with
        | some f => simp
        | none => simp

/-- Claim C7, witness: the empty filter agrees with all() on the User
model over the empty database. -/
theorem C7_witness :
    (Model.filter UserC (some emptyDB) []).1 = (Model.all UserC (some emptyDB)).1 ∧
    (Model.filter UserC (some emptyDB) []).2.1 = (Model.all UserC (some emptyDB)).2.1 :=
  C7_empty_filter.1 UserC (some emptyDB)

/-- Claim C10, witness: the parsed operator of a concrete key is in the
known operator table. -/
theorem C10_witness :
    (dictGet OPERATORS (parse_filter_key "age__gt").2).isSome = true :=
  C10_operator_total.1 "age__gt"

end SqliteOrm
